import Mathlib

/-!
Verification development for the romance-realism stage engine
(`src/analysis_helpers.ts`, `src/Stage.tsx`).

The code operates on JavaScript strings with regular expressions built from
word-boundary-anchored alternations of literal phrases.  We embed the texts as
`List Char` and the pattern language as a small executable AST (`Rx`) whose
matcher reproduces the backtracking order of the JS engine on the pattern
forms the source uses (literals, character classes, `\s+`, `?`, alternation,
`\b`, `^`, negative lookahead).  Case-insensitivity (`i` flag) is ASCII
folding, which covers every pattern and input in scope.
-/

namespace RR

/-- ASCII lower-casing, the effect of the `i` regex flag on the ASCII
patterns and inputs used by the engine. -/
def asciiLower (c : Char) : Char :=
  if c.toNat ≥ 65 ∧ c.toNat ≤ 90 then Char.ofNat (c.toNat + 32) else c

/-- JS `\w`: `[A-Za-z0-9_]`. -/
def isWordChar (c : Char) : Bool :=
  (c.toNat ≥ 97 ∧ c.toNat ≤ 122) ∨ (c.toNat ≥ 65 ∧ c.toNat ≤ 90) ∨
  (c.toNat ≥ 48 ∧ c.toNat ≤ 57) ∨ c.toNat = 95

/-- JS `\s` restricted to the ASCII whitespace characters that can occur in
the engine's inputs (space, tab, LF, VT, FF, CR). -/
def isJsSpace (c : Char) : Bool :=
  c.toNat = 32 ∨ c.toNat = 9 ∨ c.toNat = 10 ∨ c.toNat = 11 ∨ c.toNat = 12 ∨ c.toNat = 13

/-- The ASCII apostrophe, written via its code so the scanner never sees a
bare quote character. -/
def apoC : Char := Char.ofNat 39

/-- The ASCII double-quote character. -/
def dqC : Char := Char.ofNat 34

def apoS : String := String.singleton apoC

/-- Pattern AST covering the regex features used by `analysis_helpers.ts`:
case-insensitive literals, one-char classes, `\s+`, greedy `?`, alternation,
sequencing, `\b`, `^` and negative lookahead. -/
inductive Rx where
  | eps : Rx
  | lit : List Char → Rx
  | cls : List Char → Rx
  | ws : Rx
  | opt : Rx → Rx
  | alt : Rx → Rx → Rx
  | seq : Rx → Rx → Rx
  | bnd : Rx
  | bos : Rx
  | nla : Rx → Rx
deriving Repr

/-- Does the literal `s` (compared case-insensitively) occur in `t` at
position `i`? -/
def matchLit (t : List Char) : List Char → Nat → Bool
  | [], _ => true
  | c :: cs, i =>
    match t[i]? with
    | some d => asciiLower d = asciiLower c ∧ matchLit t cs (i + 1)
    | none => false

/-- Length of the whitespace run starting at `i`. -/
def wsRun (t : List Char) (i : Nat) : Nat :=
  ((t.drop i).takeWhile isJsSpace).length

/-- Is the character at position `i` a word character (`false` off the ends,
as in JS `\b` evaluation)? -/
def wordAt (t : List Char) (i : Nat) : Bool :=
  match t[i]? with
  | some c => isWordChar c
  | none => false

/-- JS `\b`: a word boundary between positions `i-1` and `i`. -/
def wordBoundary (t : List Char) (i : Nat) : Bool :=
  match i with
  | 0 => wordAt t 0
  | j + 1 => wordAt t j ≠ wordAt t (j + 1)

/-- All end positions of a match of `r` at position `i` of `t`, in the JS
backtracking priority order (greedy quantifiers first, alternatives in
order). The head, when any, is the end position the JS engine reports. -/
def matchEnds (t : List Char) : Rx → Nat → List Nat
  | .eps, i => [i]
  | .lit s, i => if matchLit t s i then [i + s.length] else []
  | .cls s, i =>
    match t[i]? with
    | some c => if s.any (fun d => asciiLower d = asciiLower c) then [i + 1] else []
    | none => []
  | .ws, i =>
    let k := wsRun t i
    (List.range k).map (fun j => i + (k - j))
  | .opt r, i => matchEnds t r i ++ [i]
  | .alt r₁ r₂, i => matchEnds t r₁ i ++ matchEnds t r₂ i
  | .seq r₁ r₂, i => (matchEnds t r₁ i).flatMap (fun j => matchEnds t r₂ j)
  | .bnd, i => if wordBoundary t i then [i] else []
  | .bos, i => if i = 0 then [i] else []
  | .nla r, i => if (matchEnds t r i).isEmpty then [i] else []

/-- Leftmost match of `r` in `t` at a start position ≥ `p`; returns
`(start, end)`, the behaviour of `RegExp.exec` with `lastIndex = p`. -/
def searchFromAux (t : List Char) (r : Rx) : Nat → Nat → Option (Nat × Nat)
  | 0, _ => none
  | fuel + 1, p =>
    match (matchEnds t r p).head? with
    | some e => some (p, e)
    | none => searchFromAux t r fuel (p + 1)

def searchFrom (t : List Char) (r : Rx) (p : Nat) : Option (Nat × Nat) :=
  searchFromAux t r (t.length + 1 - p) p

/-- JS `re.test(t)` / truthiness of `t.match(re)`. -/
def rxTest (t : List Char) (r : Rx) : Bool :=
  (searchFrom t r 0).isSome

/-- Count of matches of a global regex, the length of `t.match(/re/g)`
(advancing past each match, by one position on an empty match). -/
def countMatchesAux (t : List Char) (r : Rx) : Nat → Nat → Nat → Nat
  | 0, _, acc => acc
  | fuel + 1, p, acc =>
    match searchFrom t r p with
    | none => acc
    | some (i, e) => countMatchesAux t r fuel (if i < e then e else i + 1) (acc + 1)

def countMatches (t : List Char) (r : Rx) : Nat :=
  countMatchesAux t r (t.length + 1) 0 0

-- Pattern-building helpers.

def rlit (s : String) : Rx := .lit s.toList

def rseq (l : List Rx) : Rx := l.foldr .seq .eps

def ralt : List Rx → Rx
  | [] => .nla .eps
  | [r] => r
  | r :: rs => .alt r (ralt rs)

/-- `\b(...)\b` around a list of alternatives. -/
def wordAlt (l : List Rx) : Rx := rseq [.bnd, ralt l, .bnd]

/-- A stem with an optional suffix taken from `sufs` (e.g. `snaps?`,
`seeth(?:es|ing)` is `rstem "seeth" ["es","ing"]` without `.opt`). -/
def rsufOpt (stem : String) (sufs : List String) : Rx :=
  rseq [rlit stem, .opt (ralt (sufs.map rlit))]

/-- `pre'?post`: a literal with an optional apostrophe, e.g. `can'?t`. -/
def rapo (pre post : String) : Rx :=
  rseq [rlit pre, .opt (rlit apoS), rlit post]

/-- A contributing reason `{label, weight}` (`WeightedHit` in the source). -/
structure WeightedHit where
  label : String
  weight : Int
deriving Repr, DecidableEq

def sumWeights (hits : List WeightedHit) : Int :=
  hits.foldl (fun acc h => acc + h.weight) 0

/-- Negation cues scanned for in the pre-match window:
`\b(?:not|never|no|hardly|scarcely|without|isn'?t|aren'?t|don'?t|didn'?t|won'?t|can'?t|couldn'?t)\b`. -/
def negationCueRx : Rx :=
  wordAlt [rlit "not", rlit "never", rlit "no", rlit "hardly", rlit "scarcely",
    rlit "without", rapo "isn" "t", rapo "aren" "t", rapo "don" "t", rapo "didn" "t",
    rapo "won" "t", rapo "can" "t", rapo "couldn" "t"]

/-- `isNegatedAt` (analysis_helpers.ts:61): a match at `matchIndex` is negated
when the 24 characters before it contain a negation cue, unless a hard
boundary punctuation mark (`[.!?;,]`) occurs in that window. -/
def isNegatedAt (t : List Char) (matchIndex : Nat) : Bool :=
  if matchIndex = 0 then false
  else
    let windowChars : Nat := 24
    let start := matchIndex - windowChars
    let pre := (t.drop start).take (matchIndex - start)
    if pre.any (fun c => c = '.' ∨ c = '!' ∨ c = '?' ∨ c = ';' ∨ c = ',') then false
    else rxTest pre negationCueRx

/-- Result of `scoreRegexWithNegation`. -/
structure ScoreHit where
  score : Int
  reasons : List WeightedHit
deriving Repr, DecidableEq

/-- The exec loop of `scoreRegexWithNegation` (analysis_helpers.ts:70):
each non-negated match adds `weight`, stopping after `maxCount = 6` counted
matches; negated matches are skipped. `fuel` bounds the loop (the JS loop
advances `lastIndex` past every non-empty match; none of the embedded
patterns can match the empty string, so `t.length + 1` steps suffice). -/
def scoreRxAux (t : List Char) (r : Rx) (weight : Int) : Nat → Nat → Nat → Int → Int
  | 0, _, _, score => score
  | fuel + 1, p, count, score =>
    match searchFrom t r p with
    | none => score
    | some (i, e) =>
      if isNegatedAt t i then scoreRxAux t r weight fuel e count score
      else
        if 6 ≤ count + 1 then score + weight
        else scoreRxAux t r weight fuel e (count + 1) (score + weight)

def scoreRegexWithNegation (t : List Char) (r : Rx) (weight : Int) (label : String) :
    ScoreHit :=
  let score := scoreRxAux t r weight (t.length + 1) 0 0 0
  { score := score, reasons := if score ≠ 0 then [⟨label, score⟩] else [] }

/-- `hasAffirmedMatch` (analysis_helpers.ts:88): some match of `r` in `t` is
not negated. -/
def hasAffirmedAux (t : List Char) (r : Rx) : Nat → Nat → Bool
  | 0, _ => false
  | fuel + 1, p =>
    match searchFrom t r p with
    | none => false
    | some (i, e) => if isNegatedAt t i then hasAffirmedAux t r fuel e else true

def hasAffirmedMatch (t : List Char) (r : Rx) : Bool :=
  hasAffirmedAux t r (t.length + 1) 0


/-! ### extractIntensity (analysis_helpers.ts:101) -/

inductive EmotionIntensity where
  | low : EmotionIntensity
  | medium : EmotionIntensity
  | high : EmotionIntensity
deriving DecidableEq, Repr

def isUpperAZ (c : Char) : Bool := c.toNat ≥ 65 ∧ c.toNat ≤ 90

def isAsciiLetter (c : Char) : Bool :=
  (c.toNat ≥ 97 ∧ c.toNat ≤ 122) ∨ (c.toNat ≥ 65 ∧ c.toNat ≤ 90)

def upperRunLen (t : List Char) (i : Nat) : Nat :=
  ((t.drop i).takeWhile isUpperAZ).length

/-- Matches of `/\b[A-Z]{3,}\b/g`: maximal uppercase runs of length ≥ 3
delimited by non-word characters or the string ends (the greedy `{3,}`
consumes a whole run and any shorter backtrack still faces a word
character, so only whole bounded runs match). -/
def countAllCapsAux (t : List Char) : Nat → Nat → Nat
  | 0, _ => 0
  | fuel + 1, i =>
    if t.length ≤ i then 0
    else
      let k := upperRunLen t i
      if 3 ≤ k ∧ (i = 0 ∨ ¬ wordAt t (i - 1)) ∧ ¬ wordAt t (i + k) then
        1 + countAllCapsAux t fuel (i + k)
      else countAllCapsAux t fuel (i + 1)

def countAllCaps (t : List Char) : Nat := countAllCapsAux t (t.length + 1) 0

/-- Length of the run of characters equal to `c` (ignoring ASCII case)
starting at `i`. -/
def sameLetterRunLen (t : List Char) (i : Nat) (c : Char) : Nat :=
  ((t.drop i).takeWhile (fun d => asciiLower d = asciiLower c)).length

/-- Matches of `/([a-z])\1{2,}/gi`: maximal case-insensitive same-letter
runs of length ≥ 3 (e.g. "soooo", "noooo"). -/
def countElongatedAux (t : List Char) : Nat → Nat → Nat
  | 0, _ => 0
  | fuel + 1, i =>
    match t[i]? with
    | none => 0
    | some c =>
      if isAsciiLetter c then
        let k := sameLetterRunLen t i c
        if 3 ≤ k then 1 + countElongatedAux t fuel (i + k)
        else countElongatedAux t fuel (i + 1)
      else countElongatedAux t fuel (i + 1)

def countElongated (t : List Char) : Nat := countElongatedAux t (t.length + 1) 0

def intensifierRx : Rx :=
  wordAlt [rlit "very", rlit "really", rlit "so", rlit "extremely", rlit "absolutely",
    rlit "completely", rlit "totally", rlit "utterly", rlit "incredibly"]

def highStakesRx : Rx :=
  wordAlt [rlit "furious", rlit "devastated", rlit "heartbroken", rlit "terrified",
    rlit "desperate", rlit "sobbing", rlit "screaming", rlit "shaking",
    rlit "trembling", rlit "panicking"]

def extractIntensity (t : List Char) : EmotionIntensity :=
  let exclamations := countMatches t (rlit "!")
  let questions := countMatches t (rlit "?")
  let allCapsWords := countAllCaps t
  let elongated := countElongated t
  let score : Nat :=
    (if 1 ≤ exclamations then 1 else 0) + (if 3 ≤ exclamations then 1 else 0) +
    (if 3 ≤ questions then 1 else 0) + (if 2 ≤ allCapsWords then 1 else 0) +
    (if 1 ≤ elongated then 1 else 0) +
    (if rxTest t intensifierRx then 1 else 0) +
    (if rxTest t highStakesRx then 2 else 0)
  if 3 ≤ score then .high else if 1 ≤ score then .medium else .low

/-! ### scoreEmotionSnapshot (analysis_helpers.ts:128)

The engine's call sites (`extractEmotionSnapshot(content)` in Stage.tsx)
pass no `tuning`, so `getExtraRegex` always yields `null` and the
`extra_terms` rule contributes nothing; the embedding fixes that default
configuration. -/

structure EmotionSnapshot where
  tone : String
  intensity : EmotionIntensity
deriving DecidableEq, Repr

structure ToneScore where
  tone : String
  score : Int
  reasons : List WeightedHit
deriving DecidableEq, Repr

structure RulePart where
  label : String
  re : Rx
  weight : Int

def toneScore (t : List Char) (tone : String) (parts : List RulePart) : ToneScore :=
  let hits := parts.map (fun p => scoreRegexWithNegation t p.re p.weight p.label)
  { tone := tone,
    score := hits.foldl (fun a h => a + h.score) 0,
    reasons := hits.flatMap (·.reasons) }

def sadWordsRx : Rx :=
  wordAlt [rlit "sad", rlit "sorrow", rlit "tearful", rlit "teary",
    rsufOpt "cry" ["ing"], rsufOpt "sob" ["bing"],
    rseq [rlit "regret", .opt (ralt [rlit "s", rlit "ted"]),
      .nla (rseq [.ws, ralt [rlit "nothing", rlit "none"], .bnd])],
    rlit "heartbroken", rlit "grief", rsufOpt "mourn" ["s", "ing"]]

def tearsNounRx : Rx :=
  ralt [
    rseq [.bnd, ralt [rlit "his", rlit "her", rlit "their", rlit "my", rlit "your", rlit "the"],
      .ws, rlit "tears", .bnd],
    rseq [.bnd, rlit "tear", .opt (rlit "s"), .ws,
      ralt [
        rseq [rlit "well", .opt (ralt [rlit "s", rlit "ing"]), .ws, rlit "up"],
        rsufOpt "spill" ["s", "ing"],
        rsufOpt "stream" ["s", "ing"],
        rseq [rlit "roll", .opt (ralt [rlit "s", rlit "ing"]), .opt (rseq [.ws, rlit "down"])],
        rsufOpt "fall" ["s", "ing"],
        rseq [rlit "in", .ws, ralt [rlit "his", rlit "her", rlit "their", rlit "my", rlit "your"],
          .ws, rlit "eyes"]],
      .bnd]]

def apologyRx : Rx :=
  wordAlt [rseq [rlit "apolog", ralt [rlit "y", rlit "ize", rlit "ise"]], rlit "sorry"]

def hurtRx : Rx :=
  wordAlt [rlit "hurt", rlit "aching", rlit "broken",
    rseq [rlit "heavy in ", ralt [rlit "his", rlit "her", rlit "their", rlit "your"], rlit " chest"]]

def tearsVoiceRx : Rx :=
  wordAlt [rsufOpt "voice crack" ["s"],
    rseq [rlit "wipe", .opt (rlit "s"), rlit " ", ralt [rlit "a", rlit "his", rlit "her", rlit "their"],
      rlit " tear", .opt (rlit "s")]]

def sadnessScore (t : List Char) : ToneScore :=
  toneScore t "sad" [⟨"sad_words", sadWordsRx, 2⟩, ⟨"tears_noun", tearsNounRx, 2⟩,
    ⟨"apology", apologyRx, 1⟩, ⟨"hurt", hurtRx, 1⟩, ⟨"tears_voice", tearsVoiceRx, 2⟩]

def angerWordsRx : Rx :=
  wordAlt [rlit "angry", rlit "furious", rlit "enraged", rlit "livid", rlit "mad", rlit "rage"]

def aggressiveVerbsRx : Rx :=
  wordAlt [rsufOpt "snap" ["s"], rsufOpt "snarl" ["s"], rsufOpt "glare" ["s"],
    rseq [rlit "seeth", ralt [rlit "es", rlit "ing"]], rsufOpt "growl" ["s"]]

def shoutingRx : Rx :=
  wordAlt [rsufOpt "shout" ["s"], rsufOpt "yell" ["s"], rsufOpt "scream" ["s"]]

def dareRx : Rx := wordAlt [rlit "how dare you"]

def angerScore (t : List Char) : ToneScore :=
  toneScore t "angry" [⟨"anger_words", angerWordsRx, 2⟩, ⟨"aggressive_verbs", aggressiveVerbsRx, 2⟩,
    ⟨"shouting", shoutingRx, 2⟩, ⟨"dare", dareRx, 2⟩]

def anxietyWordsRx : Rx :=
  wordAlt [rlit "anxious", rlit "nervous", rlit "worried", rlit "uneasy", rlit "afraid",
    rlit "scared", rsufOpt "fear" ["ful"], rsufOpt "panic" ["s", "king"], rlit "dread"]

def trembleRx : Rx :=
  wordAlt [rseq [rlit "trembl", ralt [rlit "e", rlit "es", rlit "ing"]],
    rseq [rlit "shak", ralt [rlit "e", rlit "es", rlit "ing"]],
    rsufOpt "fidget" ["s"],
    rseq [rlit "wring", .opt (rlit "s"), rlit " ", ralt [rlit "his", rlit "her", rlit "their"],
      rlit " hands"]]

def racingRx : Rx :=
  wordAlt [rlit "heart races", rapo "can" "t breathe", rlit "short of breath"]

def anxietyScore (t : List Char) : ToneScore :=
  toneScore t "anxious" [⟨"anxiety_words", anxietyWordsRx, 2⟩, ⟨"tremble", trembleRx, 1⟩,
    ⟨"racing", racingRx, 1⟩]

def loveWordsRx : Rx :=
  wordAlt [rlit "love", rlit "adore", rlit "cherish", rlit "treasure", rlit "fond"]

def careMissRx : Rx := wordAlt [rlit "miss you", rlit "care about you"]

def tenderRx : Rx :=
  wordAlt [rlit "affectionately", rlit "tenderly", rlit "tender", rlit "affectionate",
    rlit "gentle", rlit "with a soft smile",
    rseq [rlit "smile", .opt (rlit "s"), rlit " softly"],
    rseq [rlit "softly ", ralt [rlit "says", rsufOpt "whisper" ["s"], rsufOpt "murmur" ["s"]]],
    rseq [rlit "warmly ", ralt [rsufOpt "smile" ["s"], rsufOpt "greet" ["s"]]]]

def smileRx : Rx :=
  wordAlt [rsufOpt "smile" ["s", "d", "ing"], rsufOpt "grin" ["s", "ned", "ning"]]

def affectionScore (t : List Char) : ToneScore :=
  toneScore t "affection" [⟨"love_words", loveWordsRx, 2⟩, ⟨"care_miss", careMissRx, 2⟩,
    ⟨"tender", tenderRx, 1⟩, ⟨"smile", smileRx, 1⟩]

def blushRx : Rx :=
  wordAlt [rsufOpt "blush" ["es", "ed", "ing"], rlit "flustered",
    rseq [rlit "embarrass", ralt [rlit "ed", rlit "ing"]], rlit "self-conscious",
    rsufOpt "flush" ["es", "ed"]]

def awkwardTellsRx : Rx :=
  wordAlt [rlit "looks away",
    rseq [rlit "averts ", ralt [rlit "his", rlit "her", rlit "their"], rlit " gaze"],
    rseq [rlit "clear", .opt (rlit "s"), rlit " ", ralt [rlit "his", rlit "her", rlit "their"],
      rlit " throat"],
    rsufOpt "stammer" ["s"]]

def embarrassmentScore (t : List Char) : ToneScore :=
  toneScore t "embarrassed" [⟨"blush", blushRx, 2⟩, ⟨"awkward_tells", awkwardTellsRx, 1⟩]

def jealousWordsRx : Rx :=
  wordAlt [rlit "jealous", rlit "possessive", rlit "envious", rlit "envy"]

def tightensRx : Rx :=
  wordAlt [rlit "something tightens", rlit "a sting of jealousy", rapo "can" "t stand the thought"]

def jealousyScore (t : List Char) : ToneScore :=
  toneScore t "jealous" [⟨"jealous_words", jealousWordsRx, 2⟩, ⟨"tightens", tightensRx, 1⟩]

def excitedWordsRx : Rx :=
  wordAlt [rlit "excited", rlit "thrilled", rlit "giddy", rlit "eager", rlit "delighted",
    rapo "can" "t wait"]

def laughRx : Rx := wordAlt [rsufOpt "laugh" ["s"], rsufOpt "chuckle" ["s"]]

def brightRx : Rx := wordAlt [rlit "eyes light up", rapo "can" "t help but smile"]

def excitementScore (t : List Char) : ToneScore :=
  toneScore t "excited" [⟨"excited_words", excitedWordsRx, 2⟩, ⟨"laugh", laughRx, 1⟩,
    ⟨"bright", brightRx, 1⟩]

def tenseWordsRx : Rx :=
  wordAlt [rlit "tense", rlit "awkward", rlit "stiff", rlit "rigid", rlit "strained", rlit "uneasy"]

def silenceCueRx : Rx := wordAlt [rlit "an awkward silence", rlit "a beat of silence"]

def hesitationRx : Rx :=
  wordAlt [rsufOpt "pause" ["s"], rsufOpt "hesitate" ["s"], rsufOpt "swallow" ["s"]]

def sighRx : Rx :=
  wordAlt [rsufOpt "sigh" ["s"], rsufOpt "exhale" ["s"],
    rseq [rlit "lets out ", ralt [rlit "a", rlit "an"], rlit " ", .opt (rlit "slow "), rlit "breath"]]

def tenseScore (t : List Char) : ToneScore :=
  toneScore t "tense" [⟨"tense_words", tenseWordsRx, 2⟩, ⟨"silence", silenceCueRx, 1⟩,
    ⟨"hesitation", hesitationRx, 1⟩, ⟨"sigh", sighRx, 1⟩]

/-- The eight candidate tone scores in the order the source lists them
before sorting. -/
def toneScoreList (t : List Char) : List ToneScore :=
  [affectionScore t, angerScore t, anxietyScore t, sadnessScore t,
   embarrassmentScore t, jealousyScore t, excitementScore t, tenseScore t]

/-- Stable insertion into a descending-by-key list: an element inserted from
the left stays ahead of equal keys, matching the stable JS
`sort((a, b) => b.score - a.score)`. -/
def insertByKeyDesc {α : Type} (key : α → Int) (a : α) : List α → List α
  | [] => [a]
  | b :: l => if key b ≤ key a then a :: b :: l else b :: insertByKeyDesc key a l

def sortByKeyDesc {α : Type} (key : α → Int) (l : List α) : List α :=
  l.foldr (insertByKeyDesc key) []

def sortedToneScores (t : List Char) : List ToneScore :=
  sortByKeyDesc (·.score) (toneScoreList t)

/-- `minScoreByTone[bestTone] ?? 1`. -/
def minScoreByTone (tone : String) : Int :=
  if tone = "sad" ∨ tone = "angry" ∨ tone = "anxious" ∨ tone = "embarrassed" ∨
     tone = "jealous" ∨ tone = "excited" then 2
  else 1

def emotionToneOf (t : List Char) : String :=
  match sortedToneScores t with
  | [] => "neutral"
  | best :: _ =>
    let bestTone := if 0 < best.score then best.tone else "neutral"
    if minScoreByTone bestTone ≤ best.score then bestTone else "neutral"

def forceMediumLabels : List String := ["sad_words", "love_words", "care_miss"]

/-- The `forcedMedium` flag (analysis_helpers.ts:236-238): explicit
sadness/affection keywords imply at least medium intensity. -/
def forcedMediumOf (t : List Char) : Bool :=
  match sortedToneScores t with
  | [] => false
  | best :: _ =>
    (emotionToneOf t == "sad" || emotionToneOf t == "affection") &&
    best.reasons.any (fun r => forceMediumLabels.contains r.label)

structure SnapshotResult where
  snapshot : EmotionSnapshot
  toneScores : List ToneScore
deriving DecidableEq, Repr

def scoreEmotionSnapshot (text : String) : SnapshotResult :=
  let t := text.toList
  if t.all isJsSpace then
    { snapshot := { tone := "neutral", intensity := .low }, toneScores := [] }
  else
    let intensity := extractIntensity t
    let adjusted := if forcedMediumOf t ∧ intensity = .low then .medium else intensity
    { snapshot := { tone := emotionToneOf t, intensity := adjusted },
      toneScores := sortedToneScores t }

def extractEmotionSnapshot (text : String) : EmotionSnapshot :=
  (scoreEmotionSnapshot text).snapshot


/-! ### evaluateEmotionalDelta (analysis_helpers.ts:248) -/

/-- `{low: 0, medium: 1, high: 2}[s.intensity] ?? 0`. -/
def intensityScoreN : EmotionIntensity → Nat
  | .low => 0
  | .medium => 1
  | .high => 2

/-- `l.slice(-n)`. -/
def takeLast {α : Type} (n : Nat) (l : List α) : List α := l.drop (l.length - n)

/-- `Array.from(new Set(l))`: deduplication keeping first occurrences. -/
def dedupFirstAux {α : Type} [DecidableEq α] (seen : List α) : List α → List α
  | [] => []
  | a :: l => if a ∈ seen then dedupFirstAux seen l else a :: dedupFirstAux (a :: seen) l

def dedupFirst {α : Type} [DecidableEq α] (l : List α) : List α := dedupFirstAux [] l

def polarity (tone : String) : String :=
  if tone = "affection" ∨ tone = "excited" then "pos"
  else if tone = "sad" ∨ tone = "angry" ∨ tone = "anxious" ∨ tone = "jealous" ∨
          tone = "tense" then "neg"
  else "neutral"

def transitionCuesRx : Rx :=
  wordAlt [rseq [rlit "after a ", .opt (rlit "long "), rlit "pause"],
    rlit "takes a breath",
    rseq [rlit "breathes ", ralt [rlit "in", rlit "out"]],
    rlit "softens",
    rseq [rlit "voice ", ralt [rlit "softens", rlit "quiets", rlit "drops"]],
    rlit "steadying", rlit "gently", rlit "carefully", rlit "hesitates",
    rlit "swallows", rlit "manages a smile"]

def intensityWordOf (n : Int) : String :=
  if n ≤ 0 then "low" else if n = 1 then "medium" else "high"

structure DeltaResult where
  detected : Bool
  summary : String
  score : Int
  reasons : List WeightedHit
deriving DecidableEq, Repr

def evaluateEmotionalDelta (current : EmotionSnapshot) (recent : List EmotionSnapshot)
    (content : Option String) : DeltaResult :=
  let window := takeLast 5 recent
  if window = [] then { detected := false, summary := "", score := 0, reasons := [] }
  else
    let sumN := (window.map (fun s => intensityScoreN s.intensity)).foldl (· + ·) 0
    let len := window.length
    -- `Math.round(sum / len)` for non-negative operands.
    let avgPrevIntensity : Int := (((2 * sumN + len) / (2 * len) : Nat) : Int)
    let recentTones := window.map (·.tone)
    let lastTone := (recentTones.getLast?).getD ""
    let prevTones := takeLast 3 (dedupFirst recentTones)
    let curIntensity : Int := (intensityScoreN current.intensity : Nat)
    let toneChanged := if lastTone.length = 0 then false else lastTone ≠ current.tone
    let intensityJump : Int := curIntensity - avgPrevIntensity
    let absIntensityJump : Int := |intensityJump|
    let steadyPrev := 3 ≤ recentTones.length ∧ recentTones.all (fun x => x == lastTone)
    let prevPolarity := polarity lastTone
    let curPolarity := polarity current.tone
    let polarityFlip := prevPolarity ≠ curPolarity ∧ prevPolarity ≠ "neutral" ∧
      curPolarity ≠ "neutral"
    let hasTransitionCue :=
      match content with
      | some c => rxTest c.toList transitionCuesRx
      | none => false
    let reasons : List WeightedHit :=
      (if steadyPrev then [⟨"steady_previous_window", 1⟩] else []) ++
      (if toneChanged then [⟨"tone_changed", 1⟩] else []) ++
      (if polarityFlip then [⟨"polarity_flip", 2⟩] else []) ++
      (if 1 ≤ absIntensityJump then
        [⟨if 0 ≤ intensityJump then "intensity_spike" else "intensity_drop",
          (min 3 absIntensityJump) * 2⟩]
       else []) ++
      (if hasTransitionCue then [⟨"transition_cue_present", -2⟩] else [])
    let score := sumWeights reasons
    let detected := 3 ≤ score ∧
      (2 ≤ absIntensityJump ∨
       (polarityFlip ∧ steadyPrev ∧ 1 ≤ curIntensity) ∨
       (toneChanged ∧ steadyPrev ∧ 1 ≤ absIntensityJump))
    let prevToneLabel := if 0 < lastTone.length then lastTone else "neutral"
    let summary := prevToneLabel ++ "/" ++ intensityWordOf avgPrevIntensity ++ " → " ++
      current.tone ++ "/" ++ intensityWordOf curIntensity ++
      (if 1 < prevTones.length then
        " (recent tones: " ++ String.intercalate ", " prevTones ++ ")"
       else "")
    { detected := detected, summary := summary, score := score, reasons := reasons }

/-! ### evaluateProximityTransition (analysis_helpers.ts:514) -/

inductive Proximity where
  | Distant : Proximity
  | Nearby : Proximity
  | Touching : Proximity
  | Intimate : Proximity
deriving DecidableEq, Repr

def proximityOrder : List Proximity := [.Distant, .Nearby, .Touching, .Intimate]

def proxIdx : Proximity → Nat
  | .Distant => 0
  | .Nearby => 1
  | .Touching => 2
  | .Intimate => 3

def distantEvidenceRx : Rx :=
  wordAlt [rlit "across the room",
    rseq [rlit "keeps ", ralt [rlit "his", rlit "her", rlit "their"], rlit " distance"],
    rlit "stands back", rlit "far away"]

def nearbyEvidenceRx : Rx :=
  wordAlt [rlit "steps closer", rsufOpt "approache" ["s"], rlit "closes the distance",
    rlit "sits beside", rlit "next to", rlit "nearby", rlit "close by", rlit "leans closer"]

/-- The touch category demands an object/target qualifier for "touch"
phrases, so adjective uses ("a touching moment") register nothing. -/
def touchingEvidenceRx : Rx :=
  wordAlt [rlit "hand in hand",
    rsufOpt "hold" ["s"],
    rseq [rlit "take", .opt (rlit "s"), rlit " ",
      ralt [rlit "your", rlit "his", rlit "her", rlit "their"], rlit " hand"],
    rlit "interlaces fingers",
    rseq [rlit "brush", .opt (ralt [rlit "es", rlit "ed"]), rlit " ",
      .opt (ralt [rlit "your", rlit "his", rlit "her", rlit "their"]), .opt .ws,
      ralt [rlit "hand", rlit "fingers", rlit "arm"]],
    rseq [rlit "rest", .opt (rlit "s"), rlit " ",
      ralt [rlit "a", rlit "his", rlit "her", rlit "their"], rlit " hand ",
      ralt [rlit "on", rlit "against"]],
    rlit "hand on",
    rsufOpt "caress" ["es", "ed"],
    rseq [rlit "touch", .opt (ralt [rlit "es", rlit "ed", rlit "ing"]), .ws,
      ralt [rlit "you", rlit "him", rlit "her", rlit "them", rlit "your", rlit "his",
        rlit "her", rlit "their"]]]

def intimateEvidenceRx : Rx :=
  wordAlt [rseq [rlit "embrace", .opt (ralt [rlit "s", rlit "d"]), rlit " tightly"],
    rseq [rlit "press", .opt (ralt [rlit "es", rlit "ed"]), rlit " against"],
    rsufOpt "kiss" ["es", "ed", "ing"],
    rlit "straddles",
    rseq [rlit "in ", ralt [rlit "his", rlit "her", rlit "their"], rlit " lap"]]

structure ProximityResult where
  fromState : Proximity
  next : Proximity
  skipped : Bool
  changed : Bool
  score : Int
  evidence : List Proximity
  missing : List Proximity
deriving DecidableEq, Repr

def evaluateProximityTransition (content : String) (current : Option Proximity) :
    ProximityResult :=
  let cur := current.getD .Distant
  let t := content.toList
  let evidence : List Proximity :=
    (if rxTest t distantEvidenceRx then [.Distant] else []) ++
    (if rxTest t nearbyEvidenceRx then [.Nearby] else []) ++
    (if rxTest t touchingEvidenceRx then [.Touching] else []) ++
    (if rxTest t intimateEvidenceRx then [.Intimate] else [])
  let uniqEvidence := dedupFirst evidence
  let highest := uniqEvidence.foldl (fun acc p => if proxIdx acc < proxIdx p then p else acc)
    .Distant
  let next := if uniqEvidence ≠ [] then highest else cur
  let curIndex := proxIdx cur
  let nextIndex := proxIdx next
  let intermediate := (proximityOrder.drop (curIndex + 1)).take (nextIndex - (curIndex + 1))
  let hasIntermediateEvidence := intermediate.any (fun p => uniqEvidence.contains p)
  let skipped := curIndex + 1 < nextIndex ∧ ¬ hasIntermediateEvidence
  let changed := next ≠ cur
  { fromState := cur, next := next, skipped := skipped, changed := changed,
    score := if skipped then 3 else if changed then 1 else 0,
    evidence := uniqEvidence,
    missing := if skipped then intermediate else [] }

/-! ### detectConsentIssues (analysis_helpers.ts:549) -/

/-- `stripQuotedDialogue`: each `"[^"]*"` span is replaced by a single
space; an unmatched opening quote leaves the remainder untouched. -/
def stripQuotedAux : Nat → List Char → List Char
  | 0, l => l
  | fuel + 1, l =>
    match l with
    | [] => []
    | c :: rest =>
      if c = dqC then
        if rest.any (fun d => d = dqC) then
          ' ' :: stripQuotedAux fuel ((rest.dropWhile (fun d => d ≠ dqC)).drop 1)
        else c :: rest
      else c :: stripQuotedAux fuel rest

def stripQuotedDialogue (t : List Char) : List Char := stripQuotedAux t.length t

/-- The sentence-boundary anchor `(^|[.!?]\s+|;\s+|:\s+)\s*` that guards the
"you feel"/"you think" consent patterns. -/
def sentenceBoundaryRx : Rx :=
  rseq [ralt [.bos, rseq [.cls ['.', '!', '?'], .ws], rseq [rlit ";", .ws],
    rseq [rlit ":", .ws]], .opt .ws]

def youFeelRx : Rx :=
  rseq [sentenceBoundaryRx, rlit "you", .ws,
    ralt [rlit "feel", rlit "felt", rlit "are overcome", rapo "can" "t help but feel",
      rapo "can" "t resist"], .bnd]

def ifYouMustRx : Rx := wordAlt [rlit "if you must"]

def forcesConsentRx : Rx :=
  wordAlt [rlit "you must", rlit "you have no choice", rlit "without your consent",
    rlit "against your will", rlit "ignoring your protest", rlit "forces you",
    rapo "doesn" "t let you", rapo "won" "t let you"]

def coercivePhysicalRx : Rx :=
  wordAlt [rlit "grabs you", rlit "pins you", rlit "holds you down", rlit "forces a kiss",
    rlit "pushes you onto", rlit "gropes you"]

def innerVoiceRx : Rx :=
  wordAlt [rlit "inside your mind", rlit "your thoughts say", rlit "your inner voice"]

def youThinkRx : Rx :=
  rseq [sentenceBoundaryRx, rlit "you", .ws,
    ralt [rlit "think to yourself", rlit "think", rlit "wonder", rlit "remember"], .bnd]

def involuntaryBodyRx : Rx :=
  wordAlt [rseq [rlit "your body ", ralt [rlit "betrays", rlit "responds"]],
    rlit "a shiver runs through you"]

def detectConsentIssues (content : String) : List String :=
  if content.toList = [] then []
  else
    let narrative := stripQuotedDialogue content.toList
    (if rxTest narrative youFeelRx then ["assigns emotions to the user"] else []) ++
    (if ¬ rxTest narrative ifYouMustRx ∧ rxTest narrative forcesConsentRx then
      ["forces decisions/consent onto the user"] else []) ++
    (if rxTest narrative coercivePhysicalRx then ["coercive physical action"] else []) ++
    (if rxTest narrative innerVoiceRx ∨ rxTest narrative youThinkRx then
      ["describes internal monologue for the user"] else []) ++
    (if rxTest narrative involuntaryBodyRx then
      ["describes involuntary bodily response for the user"] else [])

/-! ### Beat resolution (analysis_helpers.ts:670-720) -/

def curlyQuoteChars : List Char :=
  [dqC, apoC, Char.ofNat 8220, Char.ofNat 8221, Char.ofNat 8216, Char.ofNat 8217]

def beatStopwords : List String :=
  ["the", "a", "an", "and", "or", "but", "so", "to", "of", "in", "on", "at", "for", "with",
   "by", "is", "are", "was", "were", "be", "been", "being",
   "i", "you", "he", "she", "they", "we", "it", "him", "her", "them", "us",
   "his", "her", "their", "your", "my", "our",
   "this", "that", "these", "those",
   "as", "from", "into", "over", "under", "between",
   "still", "just", "really", "very"]

def isLowerAlnum (c : Char) : Bool :=
  (c.toNat ≥ 97 ∧ c.toNat ≤ 122) ∨ (c.toNat ≥ 48 ∧ c.toNat ≤ 57)

/-- `split(/[^a-z0-9]+/g)` on lowered text, with the empty fragments the JS
split produces at the ends already dropped (they are removed by the length
filter in `extractKeywords` anyway). -/
def splitRunsAux : Nat → List Char → List (List Char)
  | 0, _ => []
  | fuel + 1, l =>
    match l.dropWhile (fun c => ¬ isLowerAlnum c) with
    | [] => []
    | l' => (l'.takeWhile isLowerAlnum) :: splitRunsAux fuel (l'.dropWhile isLowerAlnum)

/-- `extractKeywords`: lowercase, strip quote characters, split on
non-alphanumerics, keep tokens of length ≥ 3 that are not stopwords
(the `.trim()` in the source is a no-op on alphanumeric tokens). -/
def extractKeywords (s : List Char) : List String :=
  let lowered := (s.map asciiLower).filter (fun c => ¬ curlyQuoteChars.contains c)
  ((splitRunsAux lowered.length lowered).map (fun w => String.mk w)).filter
    (fun w => 3 ≤ w.length ∧ ¬ beatStopwords.contains w)

structure UnresolvedBeat where
  id : String
  snippet : String
  createdAt : Int
  lastSeenAt : Int
deriving DecidableEq, Repr

/-- Number of beat-snippet keywords found in the narrative keyword set
(`shared.length` in `resolveMatchingBeats`). -/
def sharedKeywordCount (narrativeKeys : List String) (b : UnresolvedBeat) : Nat :=
  ((extractKeywords b.snippet.toList).filter (fun k => narrativeKeys.contains k)).length

structure BeatSplit where
  unresolved : List UnresolvedBeat
  resolved : List UnresolvedBeat
deriving DecidableEq, Repr

def resolveMatchingBeats (beats : List UnresolvedBeat) (narrative : String) (now : Int) :
    BeatSplit :=
  if beats = [] then ⟨[], []⟩
  else
    let narrativeKeys := extractKeywords narrative.toList
    let resolved := (beats.filter (fun b => 2 ≤ sharedKeywordCount narrativeKeys b)).map
      (fun b => {b with lastSeenAt := now})
    let unresolved := beats.filter (fun b => ¬ 2 ≤ sharedKeywordCount narrativeKeys b)
    -- Strong cue but no topical match: resolve only the latest beat.
    if resolved = [] ∧ unresolved ≠ [] then
      match unresolved.getLast? with
      | some latest => ⟨unresolved.dropLast, [{latest with lastSeenAt := now}]⟩
      | none => ⟨unresolved, resolved⟩
    else ⟨unresolved, resolved⟩

def repairCueRx : Rx :=
  wordAlt [rseq [rlit "talk", .opt (ralt [rlit "s", rlit "ed"]), rlit " it through"],
    rseq [rlit "clear", .opt (ralt [rlit "s", rlit "ed"]), rlit " the air"],
    rseq [rlit "make", .opt (ralt [rlit "s", rlit "made"]), rlit " up"],
    rsufOpt "reconcile" ["s", "d"],
    rseq [rlit "reach", .opt (ralt [rlit "es", rlit "ed"]), rlit " an understanding"],
    rseq [rlit "settle", .opt (ralt [rlit "s", rlit "d"]), rlit " it"],
    rlit "resolved", rlit "resolution"]

def apologyCueRx : Rx :=
  wordAlt [rseq [rlit "apolog",
    ralt [rlit "y", rlit "ize", rlit "ise", rlit "izes", rlit "ised", rlit "ized"]]]

def forgiveCueRx : Rx :=
  wordAlt [rsufOpt "forgive" ["s", "n"], rlit "forgiven", rlit "forgives"]

def hasResolutionCue (narrative : List Char) : Bool :=
  rxTest narrative repairCueRx ∨
  (rxTest narrative apologyCueRx ∧ rxTest narrative forgiveCueRx)

/-! ### Stage.tsx afterResponse: phase advancement (lines 340-378) -/

inductive Phase where
  | Neutral : Phase
  | Familiar : Phase
  | Charged : Phase
  | Intimate : Phase
deriving DecidableEq, Repr

def phaseOrder : List Phase := [.Neutral, .Familiar, .Charged, .Intimate]

def phaseIdx : Phase → Nat
  | .Neutral => 0
  | .Familiar => 1
  | .Charged => 2
  | .Intimate => 3

def phaseName : Phase → String
  | .Neutral => "Neutral"
  | .Familiar => "Familiar"
  | .Charged => "Charged"
  | .Intimate => "Intimate"

structure EscSignal where
  type : String
  suggestedPhase : Phase
  text : String
  weight : Int
deriving DecidableEq, Repr

/-- Per-phase weight sum over the recent signal window (`suggestedWeights`;
the source's `Number.isFinite` guard is vacuous on integer weights). -/
def suggestedWeight (signals : List EscSignal) (p : Phase) : Int :=
  (signals.filter (fun s => s.suggestedPhase = p)).foldl (fun a s => a + s.weight) 0

def phaseThresholdByStrictness (strictness : Int) : Int :=
  if strictness = 1 then 6 else if strictness = 2 then 4 else if strictness = 3 then 3 else 4

/-- The downward scan for the highest suggested phase whose weight sum
reaches the strictness threshold. -/
def targetPhaseOf (strictness : Int) (signals : List EscSignal) : Option Phase :=
  phaseOrder.reverse.find?
    (fun p => phaseThresholdByStrictness strictness ≤ suggestedWeight signals p)

structure PhaseStepResult where
  phase : Phase
  warning : Option String
deriving DecidableEq, Repr

/-- One turn of the phase state machine: advance at most one step toward the
target phase, warning when the target is more than one step ahead.
`current = none` models an absent persisted phase (`|| "Neutral"`). -/
def phaseStep (strictness : Int) (current : Option Phase) (recentSignals : List EscSignal) :
    PhaseStepResult :=
  let cur := current.getD .Neutral
  let currentIndex := phaseIdx cur
  match targetPhaseOf strictness recentSignals with
  | none => ⟨cur, none⟩
  | some target =>
    let targetIdx := phaseIdx target
    if currentIndex < targetIdx then
      let nextIdx := min (currentIndex + 1) targetIdx
      let next := phaseOrder.getD nextIdx cur
      ⟨next,
       if currentIndex + 1 < targetIdx then
         some ("relationship signals suggest " ++ phaseName target ++ " but phase is " ++
           phaseName cur ++ ". Consider intermediate beats.")
       else none⟩
    else ⟨cur, none⟩

/-! ### Stage.tsx afterResponse: UI note quota and selection
(lines 282-298, 415-433 and 477-497) -/

structure NoteCandidate where
  id : String
  text : String
  score : Int
  critical : Bool
deriving DecidableEq, Repr

def consentIssueWeight (issue : String) : Int :=
  if issue = "assigns emotions to the user" then 2
  else if issue = "forces decisions/consent onto the user" then 6
  else if issue = "coercive physical action" then 7
  else if issue = "describes internal monologue for the user" then 2
  else if issue = "describes involuntary bodily response for the user" then 2
  else 2

/-- The consent note candidate that `afterResponse` (Stage.tsx:415-433)
builds when `note_consent` is on and issues were detected. -/
def consentNoteCandidate (noteConsent : Bool) (content : String) : Option NoteCandidate :=
  let issues := detectConsentIssues content
  if noteConsent ∧ 0 < issues.length then
    some { id := "consent"
           text := "Consent/agency alert: " ++ String.intercalate "; " issues
           score := issues.foldl (fun acc i => acc + consentIssueWeight i) 0
           critical := issues.any (fun i =>
             i == "coercive physical action" ||
             i == "forces decisions/consent onto the user") }
  else none

/-- `max_ui_notes_per_20` when configured, else the strictness default
`{1: 0, 2: 2, 3: 6}[strictness] ?? 0`. -/
def allowedUiNotesPer20 (maxUiNotesPer20 : Option Int) (strictness : Int) : Int :=
  match maxUiNotesPer20 with
  | some n => n
  | none => if strictness = 1 then 0 else if strictness = 2 then 2
            else if strictness = 3 then 6 else 0

/-- `text.replace(/^System note:\s*/i, '')`. -/
def stripSystemNotePre (s : String) : String :=
  let l := s.toList
  let pat := "system note:".toList
  if (l.take pat.length).map asciiLower = pat then
    String.mk ((l.drop pat.length).dropWhile isJsSpace)
  else s

/-- Sort key of the note selection:
`Number(Boolean(critical)) * 100 + score`, descending. -/
def noteSortKey (c : NoteCandidate) : Int := (if c.critical then 100 else 0) + c.score

structure NoteEmission where
  uiNote : Option String
  systemNoteHistory : List Int
deriving DecidableEq, Repr

/-- The per-turn UI note emission of `afterResponse`: quota filter
(critical candidates bypass `canEmitUiNote`), stable sort by
`(critical, score)`, truncation to `maxParts`, and — whenever a note is
emitted — the append of `turnIndex` to the rolling `systemNoteHistory`. -/
def noteEmissionStep (uiEnabled : Bool) (maxUiNotesPer20 : Option Int) (strictness : Int)
    (systemNoteHistory : List Int) (turnIndex : Int) (candidates : List NoteCandidate) :
    NoteEmission :=
  let recentSystemNotes := systemNoteHistory.filter (fun idx => turnIndex - 20 < idx)
  let allowed := allowedUiNotesPer20 maxUiNotesPer20 strictness
  let canEmitUiNote := uiEnabled ∧ (recentSystemNotes.length : Int) < allowed
  let uiNote : Option String :=
    if uiEnabled then
      let maxParts := if 3 ≤ strictness then 4 else 2
      let selected := (sortByKeyDesc noteSortKey
        (candidates.filter (fun c => c.critical ∨ canEmitUiNote))).take maxParts
      if selected ≠ [] then
        some ("System note: " ++
          String.intercalate " — " (selected.map (fun c => stripSystemNotePre c.text)))
      else none
    else none
  if uiEnabled ∧ uiNote.isSome then
    ⟨uiNote, takeLast 100 (recentSystemNotes ++ [turnIndex])⟩
  else ⟨uiNote, systemNoteHistory⟩

/-! ### Stage.tsx afterResponse: turn-boundary error handling
(lines 256-279 and 509-521) -/

structure MemoryScar where
  event : String
  text : String
  occurredAt : Int
deriving DecidableEq, Repr

structure OverlayNote where
  text : String
  occurredAt : Int
deriving DecidableEq, Repr

/-- The message-level state fields `afterResponse` reads and mutates
(`MessageStateType`); absent numeric fields are `none`. -/
structure MessageState where
  turnIndex : Option Int := none
  lastAfterResponseAt : Option Int := none
  lastEmotions : List EmotionSnapshot := []
  memoryScars : List MemoryScar := []
  proximity : Option Proximity := none
  phase : Option Phase := none
  systemNoteHistory : List Int := []
  overlayNotes : List OverlayNote := []
deriving DecidableEq, Repr

structure StageTurnResponse where
  messageState : MessageState
  error : Option String
  systemMessage : Option String
deriving DecidableEq, Repr

/-- The mutations `afterResponse` performs before any analysis call can
throw (Stage.tsx:277-279): the turn counter is bumped in place
(`turnIndex = (turnIndex || 0) + 1`) and the timestamp recorded. -/
def afterResponseEntryMutations (s : MessageState) (now : Int) : MessageState :=
  {s with turnIndex := some (s.turnIndex.getD 0 + 1), lastAfterResponseAt := some now}

/-- The catch handler (Stage.tsx:509-521): it returns whatever
`myInternalState` currently holds, with `error: null` and
`systemMessage: null` — nothing is rolled back. -/
def afterResponseCatch (currentState : MessageState) : StageTurnResponse :=
  { messageState := currentState, error := none, systemMessage := none }

/-- `afterResponse` when an unexpected exception is thrown in the analysis
section, after the entry mutations of lines 277-279 have already run: the
catch returns the mutated state. -/
def afterResponseOnEarlyThrow (s : MessageState) (now : Int) : StageTurnResponse :=
  afterResponseCatch (afterResponseEntryMutations s now)


/-! ### Named inputs used by the concrete theorems -/

/-- The nine tones a snapshot can carry. -/
def nineTones : List String :=
  ["neutral", "sad", "angry", "anxious", "affection", "embarrassed", "jealous",
   "excited", "tense"]

/-- The probe sentence of the negation test, `I'm not angry.` (the apostrophe
is assembled from its character code). -/
def negatedAngerInput : String := "I" ++ apoS ++ "m not angry."

def c1Beat1 : UnresolvedBeat :=
  ⟨"b1", "An awkward silence lingers between them, unfinished.", 1, 1⟩

def c1Beat2 : UnresolvedBeat :=
  ⟨"b2", "Their argument remains unresolved.", 2, 2⟩

def c1Narrative : String := "They talk it through."

def c9Window : List EmotionSnapshot := [⟨"sad", .low⟩, ⟨"tense", .low⟩, ⟨"sad", .low⟩]

def c9Current : EmotionSnapshot := ⟨"sad", .high⟩

def c2CriticalCandidate : NoteCandidate :=
  ⟨"consent", "Consent/agency alert: coercive physical action", 7, true⟩

def c2NonCriticalCandidate : NoteCandidate := ⟨"subtext", "Subtext: avoidance", 5, false⟩


/-! ## Theorems -/

set_option maxRecDepth 8000

lemma scoreRxAux_le (t : List Char) (r : Rx) (w : Int) (hw : 0 ≤ w) :
    ∀ (fuel p count : Nat) (score : Int), count ≤ 5 →
      scoreRxAux t r w fuel p count score ≤ score + (6 - count) * w := by
  intro fuel
  induction fuel with
  | zero =>
    intro p count score hc
    simp only [scoreRxAux]
    have : (0 : Int) ≤ (6 - count) * w := by
      apply mul_nonneg _ hw
      omega
    omega
  | succ n ih =>
    intro p count score hc
    simp only [scoreRxAux]
    rcases hsf : searchFrom t r p with _ | ⟨i, e⟩
    · simp only [hsf]
      have : (0 : Int) ≤ (6 - count) * w := by
        apply mul_nonneg _ hw
        omega
      omega
    · simp only [hsf]
      by_cases hneg : isNegatedAt t i = true
      · simp only [hneg, if_true]
        exact ih e count score hc
      · simp only [hneg, if_false, Bool.false_eq_true]
        by_cases hcnt : 6 ≤ count + 1
        · have hc5 : count = 5 := by omega
          subst hc5
          simp only [hcnt, if_true]
          norm_num
        · simp only [hcnt, if_false]
          have h1 : count + 1 ≤ 5 := by omega
          have h2 := ih e (count + 1) (score + w) h1
          have : score + w + (6 - (count + 1 : Nat)) * w ≤ score + (6 - count) * w := by
            push_cast
            have hle : ((count : Int)) ≤ 5 := by exact_mod_cast hc
            nlinarith
          omega

lemma mem_insertByKeyDesc {α : Type} (key : α → Int) (a x : α) :
    ∀ l : List α, x ∈ insertByKeyDesc key a l → x = a ∨ x ∈ l := by
  intro l
  induction l with
  | nil =>
    intro h
    simp only [insertByKeyDesc, List.mem_singleton] at h
    exact Or.inl h
  | cons b l ih =>
    intro h
    simp only [insertByKeyDesc] at h
    by_cases hk : key b ≤ key a
    · simp only [hk, if_true, List.mem_cons] at h
      rcases h with h | h | h
      · exact Or.inl h
      · exact Or.inr (by simp [h])
      · exact Or.inr (by simp [h])
    · simp only [hk, if_false, List.mem_cons] at h
      rcases h with h | h
      · exact Or.inr (by simp [h])
      · rcases ih h with h | h
        · exact Or.inl h
        · exact Or.inr (by simp [h])

lemma mem_sortByKeyDesc {α : Type} (key : α → Int) (x : α) :
    ∀ l : List α, x ∈ sortByKeyDesc key l → x ∈ l := by
  intro l
  induction l with
  | nil => intro h; simp [sortByKeyDesc] at h
  | cons b l ih =>
    intro h
    simp only [sortByKeyDesc, List.foldr_cons] at h
    rcases mem_insertByKeyDesc key b x _ h with h | h
    · simp [h]
    · exact List.mem_cons_of_mem b (ih h)

lemma toneScore_tone (t : List Char) (tone : String) (parts : List RulePart) :
    (toneScore t tone parts).tone = tone := rfl

lemma toneScoreList_tone_mem (t : List Char) (ts : ToneScore) (h : ts ∈ toneScoreList t) :
    ts.tone ∈ ["affection", "angry", "anxious", "sad", "embarrassed", "jealous",
      "excited", "tense"] := by
  simp only [toneScoreList, List.mem_cons, List.not_mem_nil, or_false] at h
  rcases h with h | h | h | h | h | h | h | h <;> subst h <;>
    simp [affectionScore, angerScore, anxietyScore, sadnessScore, embarrassmentScore,
      jealousyScore, excitementScore, tenseScore, toneScore_tone]

lemma toneSelect_mem (best : ToneScore)
    (h8 : best.tone ∈ ["affection", "angry", "anxious", "sad", "embarrassed", "jealous",
      "excited", "tense"]) :
    (if minScoreByTone (if 0 < best.score then best.tone else "neutral") ≤ best.score then
      if 0 < best.score then best.tone else "neutral"
    else "neutral") ∈ nineTones := by
  have hn : ("neutral" : String) ∈ nineTones := by simp [nineTones]
  have hb : best.tone ∈ nineTones := by
    simp only [nineTones, List.mem_cons, List.not_mem_nil, or_false] at h8 ⊢
    tauto
  split
  · split
    · exact hb
    · exact hn
  · split
    · exact hn
    · exact hn

lemma emotionToneOf_mem (t : List Char) : emotionToneOf t ∈ nineTones := by
  rcases hs : sortedToneScores t with _ | ⟨best, rest⟩
  · simp [emotionToneOf, hs, nineTones]
  · have hmem : best ∈ toneScoreList t := by
      apply mem_sortByKeyDesc (fun x : ToneScore => x.score) best (toneScoreList t)
      show best ∈ sortedToneScores t
      rw [hs]; exact List.mem_cons_self _ _
    have h8 := toneScoreList_tone_mem t best hmem
    simp only [emotionToneOf, hs]
    exact toneSelect_mem best h8

/-- C10: `scoreRegexWithNegation` counts at most 6 non-negated matches, so a
single lexical rule with non-negative weight contributes at most six times
its weight to a tone score, for every input text and every pattern. -/
theorem c10_rule_score_bound (t : List Char) (r : Rx) (w : Int) (label : String)
    (hw : 0 ≤ w) : (scoreRegexWithNegation t r w label).score ≤ 6 * w := by
  have h := scoreRxAux_le t r w hw (t.length + 1) 0 0 0 (by omega)
  simp only [scoreRegexWithNegation] at h ⊢
  omega

/-- Witness for C10 at a concrete rule and text: the anger keyword rule with
weight 2 scores at most 12 even on a text with eight keyword occurrences. -/
theorem c10_witness :
    (0 : Int) ≤ 2 ∧
    (scoreRegexWithNegation "mad mad mad mad mad mad mad mad.".toList angerWordsRx 2
      "anger_words").score ≤ 12 :=
  ⟨by decide, c10_rule_score_bound _ angerWordsRx 2 "anger_words" (by decide)⟩

/-- C7: proximity evaluation on the two specification probes — an explicit
hand-taking jumps Distant→Touching with a skip flag, while the adjective
"a touching moment" registers no proximity evidence at all. -/
theorem c7_proximity_examples :
    ((evaluateProximityTransition "She takes your hand." (some .Distant)).next =
        .Touching ∧
     (evaluateProximityTransition "She takes your hand." (some .Distant)).skipped = true ∧
     (evaluateProximityTransition "She takes your hand." (some .Distant)).changed = true) ∧
    ((evaluateProximityTransition "It was a touching moment." (some .Distant)).next =
        .Distant ∧
     (evaluateProximityTransition "It was a touching moment." (some .Distant)).changed =
        false ∧
     (evaluateProximityTransition "It was a touching moment." (some .Distant)).evidence =
        []) := by
  decide

/-- C8: the interrogative "Do you feel okay?" raises no emotion-assignment
issue, the coercive sentence raises both critical issue labels, and the note
candidate `afterResponse` builds from them is critical. -/
theorem c8_consent_examples :
    "assigns emotions to the user" ∉ detectConsentIssues "Do you feel okay?" ∧
    detectConsentIssues "He pins you down and forces you to kiss him." =
      ["forces decisions/consent onto the user", "coercive physical action"] ∧
    (consentNoteCandidate true "He pins you down and forces you to kiss him.").map
      (fun c => c.critical) = some true := by
  decide


/-- C9: the delta evaluator returns `detected = false` for an empty
prior-snapshot window, and with the identical current snapshot and identical
prior window, a concrete borderline detection is true when the turn text has
no transition-cue phrase and false when one is present. -/
theorem c9_delta_window_and_cue :
    (∀ (current : EmotionSnapshot) (content : Option String),
        (evaluateEmotionalDelta current [] content).detected = false) ∧
    (rxTest "He shouts.".toList transitionCuesRx = false ∧
     rxTest "He takes a breath.".toList transitionCuesRx = true ∧
     (evaluateEmotionalDelta c9Current c9Window (some "He shouts.")).detected = true ∧
     (evaluateEmotionalDelta c9Current c9Window (some "He takes a breath.")).detected =
       false) := by
  refine ⟨fun current content => rfl, by decide, by decide, by decide, by decide⟩

/-- C2: with the non-critical quota set to 0 and an empty emission history,
a critical consent candidate is still emitted as the turn's UI note — but the
emission appends the turn index to `systemNoteHistory` — while a non-critical
candidate is not emitted and leaves the history unchanged. The history
append on a critical-only emission is the divergence from the claim. -/
theorem c2_quota_zero_critical_emission :
    noteEmissionStep true (some 0) 1 [] 1 [c2CriticalCandidate] =
      ⟨some "System note: Consent/agency alert: coercive physical action", [1]⟩ ∧
    noteEmissionStep true (some 0) 1 [] 1 [c2NonCriticalCandidate] = ⟨none, []⟩ ∧
    ([1] : List Int) ≠ [] := by
  refine ⟨by decide, by decide, by decide⟩

/-- C3 counterexample: an exception thrown right after the entry mutations of
`afterResponse` is caught and the turn returns normally (no error, no note),
but the returned message state is not the state the turn started with — the
turn counter is already incremented. -/
theorem c3_counterexample :
    (afterResponseOnEarlyThrow {} 7).error = none ∧
    (afterResponseOnEarlyThrow {} 7).systemMessage = none ∧
    (afterResponseOnEarlyThrow {} 7).messageState ≠ ({} : MessageState) := by
  refine ⟨rfl, rfl, by decide⟩

/-- C3 amended: when an unexpected exception is thrown inside
`afterResponse`'s analysis section, the catch handler returns normally with
no error and no system message, but the message state it returns is the
internal state as already mutated up to the throw point — here the entry
mutations of Stage.tsx:277-279, so the turn counter is incremented — rather
than the state at the start of the turn. -/
theorem c3_fail_open_amended (s : MessageState) (now : Int) :
    (afterResponseOnEarlyThrow s now).error = none ∧
    (afterResponseOnEarlyThrow s now).systemMessage = none ∧
    (afterResponseOnEarlyThrow s now).messageState = afterResponseEntryMutations s now ∧
    (afterResponseOnEarlyThrow s now).messageState.turnIndex =
      some (s.turnIndex.getD 0 + 1) :=
  ⟨rfl, rfl, rfl, rfl⟩


/-- C4: for every strictness, current phase and signal window, the phase
state machine stays put or advances exactly one step (it never regresses and
never jumps), and whenever the weight-summed signals select a target phase
more than one step above the current phase, the skip warning is raised. -/
theorem c4_phase_one_step (strictness : Int) (current : Option Phase)
    (signals : List EscSignal) :
    (phaseIdx (phaseStep strictness current signals).phase =
        phaseIdx (current.getD .Neutral) ∨
     phaseIdx (phaseStep strictness current signals).phase =
        phaseIdx (current.getD .Neutral) + 1) ∧
    (∀ target, targetPhaseOf strictness signals = some target →
      phaseIdx (current.getD .Neutral) + 1 < phaseIdx target →
      (phaseStep strictness current signals).warning.isSome = true) := by
  rcases htp : targetPhaseOf strictness signals with _ | target
  · refine ⟨Or.inl ?_, ?_⟩
    · simp [phaseStep, htp]
    · intro t2 ht2 _
      exact Option.noConfusion ht2
  · generalize hcur : current.getD Phase.Neutral = cur
    refine ⟨?_, ?_⟩
    · cases cur <;> cases target <;>
        simp [phaseStep, htp, hcur, phaseOrder, phaseIdx]
    · intro t2 ht2 hlt
      injection ht2 with ht2
      subst ht2
      cases cur <;> cases target <;>
        simp_all [phaseStep, htp, phaseIdx]

/-- Witness for C4 at a concrete turn: a single Intimate-suggesting signal of
weight 4 at strictness 2 selects Intimate, the machine advances Neutral →
Familiar (one step), and the skip warning fires. -/
theorem c4_witness :
    targetPhaseOf 2 [⟨"physical_intimacy", .Intimate, "", 4⟩] = some .Intimate ∧
    (phaseIdx (phaseStep 2 (some .Neutral) [⟨"physical_intimacy", .Intimate, "", 4⟩]).phase =
        phaseIdx ((some Phase.Neutral).getD .Neutral) ∨
     phaseIdx (phaseStep 2 (some .Neutral) [⟨"physical_intimacy", .Intimate, "", 4⟩]).phase =
        phaseIdx ((some Phase.Neutral).getD .Neutral) + 1) ∧
    (phaseStep 2 (some .Neutral) [⟨"physical_intimacy", .Intimate, "", 4⟩]).warning.isSome =
      true :=
  ⟨by decide,
   (c4_phase_one_step 2 (some .Neutral) [⟨"physical_intimacy", .Intimate, "", 4⟩]).1,
   (c4_phase_one_step 2 (some .Neutral) [⟨"physical_intimacy", .Intimate, "", 4⟩]).2
     .Intimate (by decide) (by decide)⟩


/-- C1 counterexample: on a narrative with a resolution cue
("They talk it through.") sharing no two keywords with either beat, the
fallback of `resolveMatchingBeats` resolves the NEWEST beat (the last list
element, `c1Beat2`) and keeps the oldest (`c1Beat1`) unresolved — the claim
predicts the opposite (oldest resolved, `unresolved = [c1Beat2]`). -/
theorem c1_counterexample :
    hasResolutionCue c1Narrative.toList = true ∧
    sharedKeywordCount (extractKeywords c1Narrative.toList) c1Beat1 < 2 ∧
    sharedKeywordCount (extractKeywords c1Narrative.toList) c1Beat2 < 2 ∧
    (resolveMatchingBeats [c1Beat1, c1Beat2] c1Narrative 5).unresolved = [c1Beat1] ∧
    (resolveMatchingBeats [c1Beat1, c1Beat2] c1Narrative 5).resolved =
      [{c1Beat2 with lastSeenAt := 5}] ∧
    ([c1Beat1] : List UnresolvedBeat) ≠ [c1Beat2] := by
  decide

/-- C1 amended: on a resolution-cue turn with a non-empty unresolved list,
every beat sharing at least 2 non-stopword keywords with the narrative is
moved to the resolved side, and when no beat qualifies the single NEWEST
unresolved beat (the last element of the list) is resolved as the fallback. -/
theorem c1_beat_resolution_amended (beats : List UnresolvedBeat) (narrative : String)
    (now : Int) (hne : beats ≠ [])
    (_hcue : hasResolutionCue narrative.toList = true) :
    ((∀ b ∈ beats, sharedKeywordCount (extractKeywords narrative.toList) b < 2) →
      (resolveMatchingBeats beats narrative now).unresolved = beats.dropLast ∧
      (resolveMatchingBeats beats narrative now).resolved =
        (beats.getLast?.map (fun b => {b with lastSeenAt := now})).toList) ∧
    (∀ b ∈ beats, 2 ≤ sharedKeywordCount (extractKeywords narrative.toList) b →
      {b with lastSeenAt := now} ∈ (resolveMatchingBeats beats narrative now).resolved) := by
  simp only [resolveMatchingBeats, if_neg hne]
  constructor
  · intro hall
    have hres : List.filter
        (fun b => decide (2 ≤ sharedKeywordCount (extractKeywords narrative.toList) b))
        beats = [] := by
      rw [List.filter_eq_nil_iff]
      intro b hb
      simp only [decide_eq_true_eq]
      exact Nat.not_le.mpr (hall b hb)
    have hunres : List.filter
        (fun b => decide ¬2 ≤ sharedKeywordCount (extractKeywords narrative.toList) b)
        beats = beats := by
      rw [List.filter_eq_self]
      intro b hb
      simp only [decide_eq_true_eq]
      exact Nat.not_le.mpr (hall b hb)
    rw [hres, hunres]
    rw [if_pos ⟨by rfl, hne⟩]
    rcases hlast : beats.getLast? with _ | last
    · exact absurd (List.getLast?_eq_none_iff.mp hlast) hne
    · exact ⟨rfl, rfl⟩
  · intro b hb hq
    have hmem : ({b with lastSeenAt := now} : UnresolvedBeat) ∈ List.map
        (fun b => ({b with lastSeenAt := now} : UnresolvedBeat))
        (List.filter
          (fun b => decide (2 ≤ sharedKeywordCount (extractKeywords narrative.toList) b))
          beats) :=
      List.mem_map.mpr ⟨b, List.mem_filter.mpr ⟨hb, by simpa using hq⟩, rfl⟩
    split
    · rename_i hcond
      rw [hcond.1] at hmem
      exact absurd hmem (List.not_mem_nil _)
    · exact hmem

/-- Witness for C1 at the two concrete beats: no topical match, so the
fallback fires — unresolved becomes the list without its last element and
the resolved list is the updated last element. -/
theorem c1_witness :
    (resolveMatchingBeats [c1Beat1, c1Beat2] c1Narrative 5).unresolved =
      ([c1Beat1, c1Beat2].dropLast : List UnresolvedBeat) ∧
    (resolveMatchingBeats [c1Beat1, c1Beat2] c1Narrative 5).resolved =
      (([c1Beat1, c1Beat2] : List UnresolvedBeat).getLast?.map
        (fun b => {b with lastSeenAt := 5})).toList :=
  (c1_beat_resolution_amended [c1Beat1, c1Beat2] c1Narrative 5 (by decide) (by decide)).1
    (by decide)

/-- C5 counterexample: on "angry angry." the winning tone is angry, its only
(hence strongest) reason is the explicit keyword rule `anger_words`, the
surface-cue intensity is low — and the returned intensity STAYS low, so the
medium floor does not apply to every winning tone. -/
theorem c5_counterexample :
    (scoreEmotionSnapshot "angry angry.").snapshot = ⟨"angry", .low⟩ ∧
    (scoreEmotionSnapshot "angry angry.").toneScores.head? =
      some ⟨"angry", 4, [⟨"anger_words", 4⟩]⟩ ∧
    extractIntensity "angry angry.".toList = .low := by
  decide

/-- C5 amended: the low→medium intensity floor applies exactly when
`forcedMedium` holds — the winning tone is sad or affection and its reasons
include one of the explicit keyword labels sad_words/love_words/care_miss —
and for every other outcome the surface-cue intensity is returned
unchanged. -/
theorem c5_intensity_floor_amended (text : String) :
    (forcedMediumOf text.toList = true → extractIntensity text.toList = .low →
      ¬ text.toList.all isJsSpace = true →
      (scoreEmotionSnapshot text).snapshot.intensity = .medium) ∧
    (forcedMediumOf text.toList = false → ¬ text.toList.all isJsSpace = true →
      (scoreEmotionSnapshot text).snapshot.intensity = extractIntensity text.toList) := by
  constructor
  · intro hf hlow hws
    simp only [scoreEmotionSnapshot, if_neg hws]
    split
    · rfl
    · rename_i h
      exact absurd ⟨hf, hlow⟩ h
  · intro hf hws
    simp only [scoreEmotionSnapshot, if_neg hws]
    split
    · rename_i h
      rw [hf] at h
      simp at h
    · rfl

/-- Witness for C5: "sad." carries the explicit sad keyword, so its low
surface intensity is floored to medium; "angry angry." is not floored and
keeps its surface intensity. -/
theorem c5_witness :
    (scoreEmotionSnapshot "sad.").snapshot.intensity = .medium ∧
    (scoreEmotionSnapshot "angry angry.").snapshot.intensity =
      extractIntensity "angry angry.".toList :=
  ⟨(c5_intensity_floor_amended "sad.").1 (by decide) (by decide) (by decide),
   (c5_intensity_floor_amended "angry angry.").2 (by decide) (by decide)⟩

/-- C6: the tone classifier is total — every string yields one of the nine
valid tones and a low/medium/high intensity; whitespace-only (or empty)
input yields exactly neutral/low; and on `I'm not angry.` the tone is not
angry, because the anger keyword match at index 8 sits in a negation window
and the anger rule contributes zero score. -/
theorem c6_tone_classifier_total :
    (∀ text : String, (extractEmotionSnapshot text).tone ∈ nineTones ∧
      ((extractEmotionSnapshot text).intensity = .low ∨
       (extractEmotionSnapshot text).intensity = .medium ∨
       (extractEmotionSnapshot text).intensity = .high)) ∧
    (∀ text : String, text.toList.all isJsSpace = true →
      extractEmotionSnapshot text = ⟨"neutral", .low⟩) ∧
    (extractEmotionSnapshot negatedAngerInput).tone ≠ "angry" ∧
    (angerScore negatedAngerInput.toList).score = 0 ∧
    isNegatedAt negatedAngerInput.toList 8 = true := by
  refine ⟨?_, ?_, by decide, by decide, by decide⟩
  · intro text
    constructor
    · by_cases hws : text.toList.all isJsSpace = true
      · simp only [extractEmotionSnapshot, scoreEmotionSnapshot, if_pos hws]
        simp [nineTones]
      · simp only [extractEmotionSnapshot, scoreEmotionSnapshot, if_neg hws]
        exact emotionToneOf_mem text.toList
    · rcases h : (extractEmotionSnapshot text).intensity <;> simp
  · intro text hws
    simp only [extractEmotionSnapshot, scoreEmotionSnapshot, if_pos hws]

/-- Witness for C6's whitespace clause at a concrete two-space input. -/
theorem c6_witness :
    "  ".toList.all isJsSpace = true ∧
    extractEmotionSnapshot "  " = ⟨"neutral", .low⟩ :=
  ⟨by decide, c6_tone_classifier_total.2.1 "  " (by decide)⟩

end RR
